import Mathlib

/-!
# Verification of the EarthPulse client-side data-access layer

Shallow embedding of `src/EarthPulse/src/services/api.ts`: the `DataCache`
expiring cache, the `EOApiClient` request client (URL construction and error
behaviour of `request`), and the `EOApiService` read-through caching layer.

JavaScript runtime values are modelled by `JsValue` together with JavaScript
truthiness; a JS `Map` keyed by strings is modelled by `JsMap` (an association
list with insertion-order semantics, unique keys maintained exactly as a JS
`Map` does); wall-clock time (`Date.now()`) is passed explicitly as a `Nat`
millisecond timestamp.
-/

set_option maxHeartbeats 1000000

namespace EarthPulse

/-- A JavaScript runtime value, as far as the data-access layer can observe it:
`null`, `undefined`, booleans, (integer) numbers, strings, and opaque objects
distinguished by an identity tag. -/
inductive JsValue where
  | vNull
  | vUndefined
  | vBool (b : Bool)
  | vNum (n : Int)
  | vStr (s : String)
  | vObj (tag : Nat)
deriving DecidableEq, Repr

/-- JavaScript truthiness: `null`, `undefined`, `false`, `0`, and `""` are
falsy; objects and all other primitives used here are truthy. -/
def JsValue.truthy : JsValue → Bool
  | .vNull => false
  | .vUndefined => false
  | .vBool b => b
  | .vNum n => n != 0
  | .vStr s => !s.isEmpty
  | .vObj _ => true

/-- A JS `Map` with string keys: an insertion-ordered association list whose
keys are unique (as `Map.set`/`Map.delete` maintain). -/
structure JsMap (α : Type) where
  entries : List (String × α)
deriving DecidableEq, Repr

namespace JsMap

variable {α : Type}

/-- Models `new Map()`. -/
def empty : JsMap α := ⟨[]⟩

/-- Lookup, `map.get(key)` (`none` models JS `undefined`). -/
def get? (m : JsMap α) (k : String) : Option α :=
  (m.entries.find? (fun p => p.1 == k)).map Prod.snd

/-- Membership, `map.has(key)`: whether an entry for `k` exists. -/
def hasKey (m : JsMap α) (k : String) : Bool :=
  m.entries.any (fun p => p.1 == k)

/-- Insertion, `map.set(key, v)`: updates the existing entry in place (keeping insertion
order) or appends a fresh entry. -/
def set (m : JsMap α) (k : String) (v : α) : JsMap α :=
  if m.hasKey k then ⟨m.entries.map (fun p => if p.1 == k then (k, v) else p)⟩
  else ⟨m.entries ++ [(k, v)]⟩

/-- Removal, `map.delete(key)`. -/
def delete (m : JsMap α) (k : String) : JsMap α :=
  ⟨m.entries.filter (fun p => p.1 != k)⟩

/-- Size, `map.size`. -/
def size (m : JsMap α) : Nat := m.entries.length

/-- Keys, `Array.from(map.keys())`, in insertion order. -/
def keys (m : JsMap α) : List String := m.entries.map Prod.fst

end JsMap

/-- Default cache TTL: `parseInt(import.meta.env.VITE_CACHE_TTL || '3600000')`,
one hour in milliseconds when unconfigured. -/
def defaultCacheTTL : Nat := 3600000

/-- Effective TTL, `const ttl = customTTL || this.defaultTTL`: JavaScript `||` falls back to
the default when `customTTL` is omitted (`undefined`) or `0` (falsy). -/
def effectiveTTL : Option Nat → Nat
  | some n => if n = 0 then defaultCacheTTL else n
  | none => defaultCacheTTL

/-- State of a `DataCache` instance: the value map `cache` and the expiry
timestamp map `ttl`, exactly the two private `Map`s of the class. -/
structure DataCache where
  cache : JsMap JsValue
  ttl : JsMap Nat
deriving DecidableEq, Repr

namespace DataCache

/-- A freshly constructed `DataCache`: both maps empty. -/
def empty : DataCache := ⟨JsMap.empty, JsMap.empty⟩

/-- Store, `set(key, value, customTTL?)`, executed at time `now` (`Date.now()`):
stores the value and sets the expiry to `now + (customTTL || defaultTTL)`. -/
def set (c : DataCache) (key : String) (value : JsValue) (customTTL : Option Nat)
    (now : Nat) : DataCache :=
  { cache := c.cache.set key value,
    ttl := c.ttl.set key (now + effectiveTTL customTTL) }

/-- Read, `get(key)`, executed at time `now`. Returns the result (JS `value | null`,
with `vNull` as the absent marker) together with the possibly-mutated state:
`if (!expiry) return null; if (Date.now() > expiry) { delete both; return null };
return this.cache.get(key) || null`. -/
def get (c : DataCache) (key : String) (now : Nat) : JsValue × DataCache :=
  match c.ttl.get? key with
  | none => (.vNull, c)
  | some expiry =>
    if expiry = 0 then (.vNull, c)
    else if now > expiry then (.vNull, ⟨c.cache.delete key, c.ttl.delete key⟩)
    else
      match c.cache.get? key with
      | none => (.vNull, c)
      | some v => (if v.truthy then v else .vNull, c)

/-- Reset, `clear()`: empties both maps. -/
def clear (_ : DataCache) : DataCache := empty

/-- Removal, `delete(key)`: removes the entry from both maps. -/
def delete (c : DataCache) (key : String) : DataCache :=
  ⟨c.cache.delete key, c.ttl.delete key⟩

end DataCache

/-- A JavaScript error value as the data layer observes it: the constructor
name and the message (the code only ever builds `new Error(message)` and
rethrows foreign errors unchanged). -/
structure JsError where
  name : String
  message : String
deriving DecidableEq, Repr

/-- Success check, `response.ok`: status in the inclusive range 200–299. -/
def respOk (status : Nat) : Bool := 200 ≤ status && status ≤ 299

/-- Outcome of the `fetch` call inside `EOApiClient.request`: either the
promise rejects (no response received) with some error value, or a response
with a status arrives whose body then either JSON-decodes to a value or
rejects with a decode error. -/
inductive FetchOutcome where
  | transportFail (e : JsError)
  | response (status : Nat) (body : Except JsError JsValue)
deriving Repr

namespace EOApiClient

/-- The `catch`/`throw` behaviour of `EOApiClient.request` as a function of
the fetch outcome: a rejected fetch propagates its error; a non-ok status
throws `new Error("HTTP error! status: " + status)`; an ok response yields
the JSON body or propagates the decode error (the `catch` block only logs
and rethrows). -/
def request (outcome : FetchOutcome) : Except JsError JsValue :=
  match outcome with
  | .transportFail e => .error e
  | .response status body =>
    if respOk status then body
    else .error ⟨"Error", "HTTP error! status: " ++ toString status⟩

/-- The error `request` throws on a non-ok HTTP status. -/
def httpStatusError (status : Nat) : JsError :=
  ⟨"Error", "HTTP error! status: " ++ toString status⟩

/-- Base URL, `this.baseURL = baseURL + "/api/" + API_VERSION` from the constructor. -/
def mkBaseURL (baseURL version : String) : String :=
  baseURL ++ "/api/" ++ version

/-- Full URL, `const url = this.baseURL + endpoint` from `request`. -/
def requestURL (clientBaseURL endpoint : String) : String :=
  clientBaseURL ++ endpoint

/-- The endpoint string built by `getNDVIData`:
template-literal interpolation, no encoding applied. -/
def ndviEndpoint (year : Int) (region : String) : String :=
  "/environmental/ndvi/" ++ toString year ++ "?region=" ++ region

/-- The endpoint string built by `getGlacierData`. -/
def glacierEndpoint (year : Int) (region : String) : String :=
  "/environmental/glacier/" ++ toString year ++ "?region=" ++ region

/-- The endpoint string built by `getUrbanData`. -/
def urbanEndpoint (year : Int) (region : String) : String :=
  "/environmental/urban/" ++ toString year ++ "?region=" ++ region

/-- The endpoint string built by `getTemperatureData`. -/
def temperatureEndpoint (year : Int) (region : String) : String :=
  "/environmental/temperature/" ++ toString year ++ "?region=" ++ region

/-- The endpoint string built by `getEnvironmentalSummary`. -/
def summaryEndpoint (year : Int) (region : String) : String :=
  "/environmental/summary?year=" ++ toString year ++ "&region=" ++ region

end EOApiClient

/-- One hex digit, uppercase, as `URLSearchParams` percent-encoding emits. -/
def hexDigit (n : Nat) : Char :=
  if n < 10 then Char.ofNat (48 + n) else Char.ofNat (55 + n)

/-- The UTF-8 bytes of one character (as `Nat`s below 256). -/
def utf8Bytes (c : Char) : List Nat :=
  let n := c.toNat
  if n < 0x80 then [n]
  else if n < 0x800 then [0xC0 + n / 64, 0x80 + n % 64]
  else if n < 0x10000 then
    [0xE0 + n / 4096, 0x80 + (n / 64) % 64, 0x80 + n % 64]
  else
    [0xF0 + n / 262144, 0x80 + (n / 4096) % 64, 0x80 + (n / 64) % 64,
      0x80 + n % 64]

/-- Whether a byte is left intact by `application/x-www-form-urlencoded`
serialization: ASCII alphanumerics and `*`, `-`, `.`, `_`. -/
def isFormSafeByte (b : Nat) : Bool :=
  (48 ≤ b && b ≤ 57) || (65 ≤ b && b ≤ 90) || (97 ≤ b && b ≤ 122) ||
    b == 42 || b == 45 || b == 46 || b == 95

/-- Encoding of one byte: space becomes `+`, safe bytes stay, the rest are
percent-encoded. -/
def encodeByte (b : Nat) : String :=
  if b = 32 then "+"
  else if isFormSafeByte b then String.singleton (Char.ofNat b)
  else "%" ++ String.singleton (hexDigit (b / 16)) ++
    String.singleton (hexDigit (b % 16))

/-- Serialization of one string per `application/x-www-form-urlencoded` of one string, the
encoding `URLSearchParams` applies to each name and value. -/
def formUrlEncode (s : String) : String :=
  s.data.foldl (fun acc c => acc ++ (utf8Bytes c).foldl
    (fun a b => a ++ encodeByte b) "") ""

/-- Joins strings with `&`, as `URLSearchParams.toString` does between pairs. -/
def joinAmp : List String → String
  | [] => ""
  | [s] => s
  | s :: rest => s ++ "&" ++ joinAmp rest

/-- Serialization per `new URLSearchParams({...}).toString()`: each name and value form-URL
encoded, joined as `name=value` pairs with `&`. -/
def serializeParams (ps : List (String × String)) : String :=
  joinAmp (ps.map (fun p => formUrlEncode p.1 ++ "=" ++ formUrlEncode p.2))

namespace EOApiClient

/-- The endpoint string built by `getTemporalComparison`: the only accessor
that routes its parameters through `URLSearchParams`. -/
def temporalComparisonEndpoint (indicator region : String)
    (startYear endYear : Int) (includeIntermediate : Bool) : String :=
  "/environmental/compare/temporal?" ++ serializeParams
    [("indicator", indicator), ("region", region),
      ("start_year", toString startYear), ("end_year", toString endYear),
      ("include_intermediate", if includeIntermediate then "true" else "false")]

end EOApiClient

/-- The observable shape of the single HTTP request an accessor issues:
its URL and method. -/
structure HttpRequest where
  url : String
  method : String
deriving DecidableEq, Repr

/-- Caller-supplied `RequestInit` options; `none` fields are absent and fall
back to `defaultOptions` under object spread. -/
structure RequestOptions where
  method : Option String := none
  body : Option String := none
deriving DecidableEq, Repr

/-- The method after `{...defaultOptions, ...options}`: the caller's method
if supplied, else the default `GET`. -/
def configMethod (o : RequestOptions) : String := o.method.getD "GET"

/-- The one HTTP request `getNDVIData` issues, for a client constructed with
`baseURL` and `version` (it passes no options, so the method is the default). -/
def ndviHttpRequest (baseURL version : String) (year : Int)
    (region : String) : HttpRequest :=
  { url := EOApiClient.requestURL (EOApiClient.mkBaseURL baseURL version)
      (EOApiClient.ndviEndpoint year region),
    method := configMethod {} }

/-- Cache key of a cacheable `EOApiService` operation:
``` `${op}_${year}_${region}` ```. -/
def cacheKey (op : String) (year : Int) (region : String) : String :=
  op ++ "_" ++ toString year ++ "_" ++ region

/-- State of an `EOApiService` instance together with an instrumentation
counter for how many Request Client calls have been made. -/
structure ServiceState where
  cache : DataCache
  clientCalls : Nat
deriving DecidableEq, Repr

/-- A fresh `EOApiService`: empty cache, no client calls yet. -/
def ServiceState.initial : ServiceState := ⟨DataCache.empty, 0⟩

/-- The shared body of the five cacheable accessors (`getNDVIData`,
`getGlacierData`, `getUrbanData`, `getTemperatureData`,
`getEnvironmentalSummary`), executed at time `now`: look up
`cacheKey op year region`; `if (cachedData) return cachedData`; otherwise
await the Request Client (whose outcome is the oracle `client`),
`cache.set(cacheKey, data)` on success, and return. A thrown client error
propagates before the `set` line runs. -/
def cachedFetch (op : String) (year : Int) (region : String)
    (client : Except JsError JsValue) (st : ServiceState) (now : Nat) :
    Except JsError JsValue × ServiceState :=
  if (st.cache.get (cacheKey op year region) now).1.truthy then
    (.ok (st.cache.get (cacheKey op year region) now).1,
      { st with cache := (st.cache.get (cacheKey op year region) now).2 })
  else
    match client with
    | .error e =>
      (.error e,
        ⟨(st.cache.get (cacheKey op year region) now).2, st.clientCalls + 1⟩)
    | .ok data =>
      (.ok data,
        ⟨((st.cache.get (cacheKey op year region) now).2).set
            (cacheKey op year region) data none now,
          st.clientCalls + 1⟩)

namespace EOApiService

/-- Accessor `EOApiService.getNDVIData`. -/
def getNDVIData (st : ServiceState) (now : Nat) (year : Int) (region : String)
    (client : Except JsError JsValue) : Except JsError JsValue × ServiceState :=
  cachedFetch "ndvi" year region client st now

/-- Accessor `EOApiService.getGlacierData`. -/
def getGlacierData (st : ServiceState) (now : Nat) (year : Int)
    (region : String) (client : Except JsError JsValue) :
    Except JsError JsValue × ServiceState :=
  cachedFetch "glacier" year region client st now

/-- Accessor `EOApiService.getUrbanData`. -/
def getUrbanData (st : ServiceState) (now : Nat) (year : Int)
    (region : String) (client : Except JsError JsValue) :
    Except JsError JsValue × ServiceState :=
  cachedFetch "urban" year region client st now

/-- Accessor `EOApiService.getTemperatureData`. -/
def getTemperatureData (st : ServiceState) (now : Nat) (year : Int)
    (region : String) (client : Except JsError JsValue) :
    Except JsError JsValue × ServiceState :=
  cachedFetch "temperature" year region client st now

/-- Accessor `EOApiService.getEnvironmentalSummary`. -/
def getEnvironmentalSummary (st : ServiceState) (now : Nat) (year : Int)
    (region : String) (client : Except JsError JsValue) :
    Except JsError JsValue × ServiceState :=
  cachedFetch "summary" year region client st now

/-- Cache reset, `EOApiService.clearCache`. -/
def clearCache (st : ServiceState) : ServiceState :=
  { st with cache := st.cache.clear }

/-- Diagnostic `EOApiService.getCacheStatus`: reads `this.cache['cache'].size` and
`Array.from(this.cache['cache'].keys())` — the raw value map, bypassing
expiry checks, with no mutation. -/
def getCacheStatus (c : DataCache) : Nat × List String :=
  (c.cache.size, c.cache.keys)

end EOApiService

/-- One public operation on a `DataCache` instance, with the wall-clock time
at which it runs where the operation reads the clock. -/
inductive CacheOp where
  | set (key : String) (v : JsValue) (customTTL : Option Nat) (now : Nat)
  | get (key : String) (now : Nat)
  | delete (key : String)
  | clear
deriving Repr

/-- Applies one operation to the cache state (a `get`'s returned value is
discarded; only its lazy-eviction side effect remains). -/
def applyOp (c : DataCache) : CacheOp → DataCache
  | .set k v t n => c.set k v t n
  | .get k n => (c.get k n).2
  | .delete k => c.delete k
  | .clear => c.clear

/-- Applies a sequence of operations in order. -/
def applyOps (c : DataCache) (ops : List CacheOp) : DataCache :=
  ops.foldl applyOp c

/-- Structural invariant of a `DataCache` state: the value map and the expiry
map mention exactly the same keys, and each map holds each key at most once. -/
def DataCache.wellFormed (c : DataCache) : Prop :=
  (∀ k, c.cache.hasKey k = c.ttl.hasKey k) ∧
    c.cache.keys.Nodup ∧ c.ttl.keys.Nodup


namespace JsMap

variable {α : Type}

theorem find?_update_mem (k : String) (v : α) (l : List (String × α))
    (h : l.any (fun p => p.1 == k) = true) :
    (l.map (fun p => if p.1 == k then (k, v) else p)).find? (fun p => p.1 == k)
      = some (k, v) := by
  induction l with
  | nil => simp at h
  | cons q l ih =>
    simp only [List.map_cons]
    cases hq : (q.1 == k) with
    | true => simp [List.find?, hq]
    | false =>
      simp only [List.any_cons, hq, Bool.false_or] at h
      simp only [hq, Bool.false_eq_true, if_false, List.find?, hq]
      exact ih h

theorem find?_append_single (k : String) (v : α) (l : List (String × α))
    (h : l.any (fun p => p.1 == k) = false) :
    (l ++ [(k, v)]).find? (fun p => p.1 == k) = some (k, v) := by
  induction l with
  | nil => simp [List.find?]
  | cons q l ih =>
    simp only [List.any_cons, Bool.or_eq_false_iff] at h
    simp only [List.cons_append, List.find?, h.1]
    exact ih h.2

theorem find?_update_other (k k' : String) (v : α) (h : k ≠ k')
    (l : List (String × α)) :
    (l.map (fun p => if p.1 == k then (k, v) else p)).find? (fun p => p.1 == k')
      = l.find? (fun p => p.1 == k') := by
  induction l with
  | nil => simp
  | cons q l ih =>
    simp only [List.map_cons]
    cases hq : (q.1 == k) with
    | true =>
      have hk' : (k == k') = false := by simpa using h
      have hq' : (q.1 == k') = false := by
        rw [show q.1 = k from eq_of_beq hq]
        exact hk'
      simp only [hq, if_true, List.find?, hk', hq']
      exact ih
    | false =>
      simp only [hq, Bool.false_eq_true, if_false, List.find?]
      cases hq' : (q.1 == k') with
      | true => rfl
      | false => exact ih

theorem find?_filter_ne_other (k k' : String) (h : k ≠ k')
    (l : List (String × α)) :
    (l.filter (fun p => p.1 != k)).find? (fun p => p.1 == k')
      = l.find? (fun p => p.1 == k') := by
  induction l with
  | nil => simp
  | cons q l ih =>
    simp only [List.filter_cons]
    cases hq : (q.1 == k) with
    | true =>
      have hq' : (q.1 == k') = false := by
        rw [show q.1 = k from eq_of_beq hq]
        simpa using h
      have hb : (q.1 != k) = false := by simp [bne, hq]
      simp only [hb, Bool.false_eq_true, if_false, List.find?, hq']
      exact ih
    | false =>
      have hb : (q.1 != k) = true := by simp [bne, hq]
      simp only [hb, if_true, List.find?]
      cases hq' : (q.1 == k') with
      | true => rfl
      | false => exact ih

theorem get?_set_self (m : JsMap α) (k : String) (v : α) :
    (m.set k v).get? k = some v := by
  unfold set get? hasKey
  by_cases h : m.entries.any (fun p => p.1 == k) = true
  · rw [if_pos h]
    simp only
    rw [find?_update_mem k v m.entries h]
    rfl
  · rw [if_neg h]
    simp only
    rw [find?_append_single k v m.entries (Bool.eq_false_iff.mpr h)]
    rfl

theorem get?_set_ne (m : JsMap α) (k k' : String) (v : α) (h : k ≠ k') :
    (m.set k v).get? k' = m.get? k' := by
  unfold set get? hasKey
  by_cases hk : m.entries.any (fun p => p.1 == k) = true
  · rw [if_pos hk]
    simp only
    rw [find?_update_other k k' v h m.entries]
  · rw [if_neg hk]
    simp only
    rw [List.find?_append]
    have : List.find? (fun p => p.1 == k') [(k, v)] = none := by
      simp [List.find?_cons, h]
    rw [this]
    simp

theorem get?_delete_self (m : JsMap α) (k : String) :
    (m.delete k).get? k = none := by
  unfold delete get?
  have h : (m.entries.filter (fun p => p.1 != k)).find? (fun p => p.1 == k)
      = none := by
    rw [List.find?_eq_none]
    intro p hp
    have h2 := (List.mem_filter.mp hp).2
    simp only [bne_iff_ne, ne_eq] at h2
    simpa using h2
  simp [h]

theorem get?_delete_ne (m : JsMap α) (k k' : String) (h : k ≠ k') :
    (m.delete k).get? k' = m.get? k' := by
  unfold delete get?
  simp only
  rw [find?_filter_ne_other k k' h m.entries]

theorem hasKey_iff_get? (m : JsMap α) (k : String) :
    m.hasKey k = true ↔ (m.get? k).isSome = true := by
  unfold hasKey get?
  have hmap : (Option.map Prod.snd (m.entries.find? (fun p => p.1 == k))).isSome
      = (m.entries.find? (fun p => p.1 == k)).isSome := by
    cases m.entries.find? (fun p => p.1 == k) <;> rfl
  rw [hmap, List.any_eq_true, List.find?_isSome]

theorem mem_keys_iff_hasKey (m : JsMap α) (k : String) :
    k ∈ m.keys ↔ m.hasKey k = true := by
  unfold keys hasKey
  rw [List.any_eq_true]
  constructor
  · intro h
    rcases List.mem_map.mp h with ⟨p, hp, hpk⟩
    exact ⟨p, hp, by simp [hpk]⟩
  · rintro ⟨p, hp, hpk⟩
    exact List.mem_map.mpr ⟨p, hp, by simpa using hpk⟩

theorem keys_set_of_hasKey (m : JsMap α) (k : String) (v : α)
    (h : m.hasKey k = true) : (m.set k v).keys = m.keys := by
  unfold set keys
  rw [if_pos h]
  simp only [List.map_map]
  apply List.map_congr_left
  intro p _
  simp only [Function.comp_apply]
  cases hp : (p.1 == k) with
  | true => simp [eq_of_beq hp]
  | false => simp

theorem keys_set_of_not_hasKey (m : JsMap α) (k : String) (v : α)
    (h : m.hasKey k = false) : (m.set k v).keys = m.keys ++ [k] := by
  unfold set keys
  rw [if_neg (by simp [h])]
  simp

theorem keys_nodup_set (m : JsMap α) (k : String) (v : α)
    (h : m.keys.Nodup) : (m.set k v).keys.Nodup := by
  cases hk : m.hasKey k with
  | true => rw [keys_set_of_hasKey m k v hk]; exact h
  | false =>
    rw [keys_set_of_not_hasKey m k v hk]
    have : k ∉ m.keys := fun hc =>
      by simp [(mem_keys_iff_hasKey m k).mp hc] at hk
    simp [List.nodup_append, h, this]

theorem keys_nodup_delete (m : JsMap α) (k : String)
    (h : m.keys.Nodup) : (m.delete k).keys.Nodup := by
  unfold delete keys
  exact h.sublist (List.Sublist.map Prod.fst (List.filter_sublist m.entries))

theorem hasKey_set (m : JsMap α) (k k' : String) (v : α) :
    (m.set k v).hasKey k' = (k == k' || m.hasKey k') := by
  by_cases h : k = k'
  · subst h
    have : (m.set k v).hasKey k = true := by
      rw [hasKey_iff_get?, get?_set_self]
      rfl
    simp [this]
  · have : (m.set k v).hasKey k' = m.hasKey k' := by
      rw [Bool.eq_iff_iff, hasKey_iff_get?, get?_set_ne m k k' v h,
        ← hasKey_iff_get?]
    simp [this, h]

theorem hasKey_delete (m : JsMap α) (k k' : String) :
    (m.delete k).hasKey k' = (!(k == k') && m.hasKey k') := by
  by_cases h : k = k'
  · subst h
    have : (m.delete k).hasKey k = false := by
      rw [Bool.eq_false_iff]
      intro hc
      rw [hasKey_iff_get?, get?_delete_self] at hc
      simp at hc
    simp [this]
  · have : (m.delete k).hasKey k' = m.hasKey k' := by
      rw [Bool.eq_iff_iff, hasKey_iff_get?, get?_delete_ne m k k' h,
        ← hasKey_iff_get?]
    simp [this, h]

end JsMap

namespace DataCache

theorem effectiveTTL_pos (t : Option Nat) : 0 < effectiveTTL t := by
  cases t with
  | none => decide
  | some n =>
    by_cases h : n = 0
    · simp [effectiveTTL, h, defaultCacheTTL]
    · simp [effectiveTTL, h]
      omega

theorem ttl_get?_set_self (c : DataCache) (key : String) (v : JsValue)
    (t : Option Nat) (now : Nat) :
    (c.set key v t now).ttl.get? key = some (now + effectiveTTL t) :=
  JsMap.get?_set_self c.ttl key (now + effectiveTTL t)

theorem cache_get?_set_self (c : DataCache) (key : String) (v : JsValue)
    (t : Option Nat) (now : Nat) :
    (c.set key v t now).cache.get? key = some v :=
  JsMap.get?_set_self c.cache key v

/-- Read of a present entry at a time not past its (positive) expiry: no
mutation, and the stored value comes back through `value || null`. -/
theorem get_live (c : DataCache) (key : String) (e now : Nat) (v : JsValue)
    (he : c.ttl.get? key = some e) (hpos : 0 < e) (hnow : now ≤ e)
    (hv : c.cache.get? key = some v) :
    c.get key now = (if v.truthy then v else .vNull, c) := by
  unfold get
  simp only [he, hv]
  rw [if_neg (by omega), if_neg (by omega)]

/-- Read of an entry whose (positive) expiry is strictly in the past:
returns `null` and deletes the entry from both maps. -/
theorem get_expired (c : DataCache) (key : String) (e now : Nat)
    (he : c.ttl.get? key = some e) (hpos : 0 < e) (hlt : e < now) :
    c.get key now = (.vNull, c.delete key) := by
  unfold get
  simp only [he]
  rw [if_neg (by omega), if_pos (by omega)]
  rfl

/-- Read of a key absent from the expiry map: returns `null`, no mutation. -/
theorem get_absent (c : DataCache) (key : String) (now : Nat)
    (he : c.ttl.get? key = none) :
    c.get key now = (.vNull, c) := by
  unfold get
  simp only [he]

/-- Read of a present entry whose value is missing from the value map, at a
time not past the (positive) expiry: returns `null`, no mutation. -/
theorem get_no_value (c : DataCache) (key : String) (e now : Nat)
    (he : c.ttl.get? key = some e) (hpos : 0 < e) (hnow : now ≤ e)
    (hv : c.cache.get? key = none) :
    c.get key now = (.vNull, c) := by
  unfold get
  simp only [he, hv]
  rw [if_neg (by omega), if_neg (by omega)]

/-- Read of an entry with the (unreachable-by-`set`) expiry timestamp `0`:
the `!expiry` guard fires, returning `null` without mutation. -/
theorem get_zero_expiry (c : DataCache) (key : String) (now : Nat)
    (he : c.ttl.get? key = some 0) :
    c.get key now = (.vNull, c) := by
  unfold get
  simp only [he]
  simp

/-- A read either leaves the state unchanged or lazily deletes exactly the
read key from both maps. -/
theorem get_state_cases (c : DataCache) (key : String) (now : Nat) :
    (c.get key now).2 = c ∨ (c.get key now).2 = c.delete key := by
  cases he : c.ttl.get? key with
  | none => left; rw [get_absent c key now he]
  | some e =>
    by_cases h0 : e = 0
    · left
      rw [h0] at he
      rw [get_zero_expiry c key now he]
    · by_cases hlt : now > e
      · right
        rw [get_expired c key e now he (Nat.pos_of_ne_zero h0) hlt]
      · left
        cases hv : c.cache.get? key with
        | none =>
          rw [get_no_value c key e now he (Nat.pos_of_ne_zero h0) (by omega) hv]
        | some v =>
          rw [get_live c key e now v he (Nat.pos_of_ne_zero h0) (by omega) hv]

/-- A read that comes back falsy keeps coming back falsy at every other read
time: a read only ever deletes the key, and a falsy stored value stays falsy. -/
theorem get_falsy_persists (c : DataCache) (key : String) (now now' : Nat)
    (h : ((c.get key now).1).truthy = false) :
    (((c.get key now).2).get key now').1.truthy = false := by
  cases he : c.ttl.get? key with
  | none =>
    rw [get_absent c key now he, get_absent c key now' he]
    rfl
  | some e =>
    by_cases h0 : e = 0
    · rw [h0] at he
      rw [get_zero_expiry c key now he, get_zero_expiry c key now' he]
      rfl
    · have hpos : 0 < e := Nat.pos_of_ne_zero h0
      by_cases hlt : now > e
      · rw [get_expired c key e now he hpos hlt]
        have hdel : (c.delete key).ttl.get? key = none :=
          JsMap.get?_delete_self c.ttl key
        rw [get_absent (c.delete key) key now' hdel]
        rfl
      · by_cases hlt' : now' > e
        · have hst : (c.get key now).2 = c := by
            cases hv : c.cache.get? key with
            | none =>
              rw [get_no_value c key e now he hpos (by omega) hv]
            | some v =>
              rw [get_live c key e now v he hpos (by omega) hv]
          rw [hst, get_expired c key e now' he hpos hlt']
          rfl
        · cases hv : c.cache.get? key with
          | none =>
            rw [get_no_value c key e now he hpos (by omega) hv]
            rw [get_no_value c key e now' he hpos (by omega) hv]
            rfl
          | some v =>
            have hvf : v.truthy = false := by
              rw [get_live c key e now v he hpos (by omega) hv] at h
              cases hvt : v.truthy with
              | false => rfl
              | true =>
                rw [hvt] at h
                simp only [if_true] at h
                exact hvt.symm.trans h
            rw [get_live c key e now v he hpos (by omega) hv]
            simp only [hvf, Bool.false_eq_true, if_false]
            rw [get_live c key e now' v he hpos (by omega) hv]
            simp only [hvf, Bool.false_eq_true, if_false]
            rfl

end DataCache

theorem wellFormed_empty : DataCache.empty.wellFormed :=
  ⟨fun _ => rfl, List.nodup_nil, List.nodup_nil⟩

theorem wellFormed_set (c : DataCache) (k : String) (v : JsValue)
    (t : Option Nat) (n : Nat) (h : c.wellFormed) :
    (c.set k v t n).wellFormed := by
  obtain ⟨hk, hn1, hn2⟩ := h
  refine ⟨fun k' => ?_, JsMap.keys_nodup_set _ _ _ hn1,
    JsMap.keys_nodup_set _ _ _ hn2⟩
  show (c.cache.set k v).hasKey k' = (c.ttl.set k _).hasKey k'
  rw [JsMap.hasKey_set, JsMap.hasKey_set, hk k']

theorem wellFormed_delete (c : DataCache) (k : String) (h : c.wellFormed) :
    (c.delete k).wellFormed := by
  obtain ⟨hk, hn1, hn2⟩ := h
  refine ⟨fun k' => ?_, JsMap.keys_nodup_delete _ _ hn1,
    JsMap.keys_nodup_delete _ _ hn2⟩
  show (c.cache.delete k).hasKey k' = (c.ttl.delete k).hasKey k'
  rw [JsMap.hasKey_delete, JsMap.hasKey_delete, hk k']

theorem wellFormed_get (c : DataCache) (k : String) (n : Nat)
    (h : c.wellFormed) : ((c.get k n).2).wellFormed := by
  rcases DataCache.get_state_cases c k n with hs | hs
  · rw [hs]; exact h
  · rw [hs]; exact wellFormed_delete c k h

theorem wellFormed_applyOp (c : DataCache) (op : CacheOp)
    (h : c.wellFormed) : (applyOp c op).wellFormed := by
  cases op with
  | set k v t n => exact wellFormed_set c k v t n h
  | get k n => exact wellFormed_get c k n h
  | delete k => exact wellFormed_delete c k h
  | clear => exact wellFormed_empty

theorem wellFormed_applyOps (c : DataCache) (ops : List CacheOp)
    (h : c.wellFormed) : (applyOps c ops).wellFormed := by
  induction ops generalizing c with
  | nil => exact h
  | cons op ops ih =>
    simp only [applyOps, List.foldl_cons]
    exact ih (applyOp c op) (wellFormed_applyOp c op h)

/-- C1. The claim: `get(key)` at any `now` with `now ≥ expiresAt` — the
exact-equality instant included — returns absent and deletes the entry. The
code tests `Date.now() > expiry` strictly, so at `now = expiresAt` the stored
value is still returned and the entry kept: entry set at time 0 with TTL 100
(expiry 100), read at time 100. -/
theorem claim1_counterexample :
    (DataCache.empty.set "k" (.vObj 0) (some 100) 0).ttl.get? "k"
        = some 100 ∧
    (100 : Nat) ≥ 100 ∧
    (DataCache.empty.set "k" (.vObj 0) (some 100) 0).get "k" 100
      = (.vObj 0, DataCache.empty.set "k" (.vObj 0) (some 100) 0) := by
  decide

/-- C1 (amended): for an entry with a positive expiry timestamp `e` (every
entry `set` writes has one), `get(key)` at `now > e` strictly returns absent
and deletes both the stored value and the expiry; at `now = e` exactly, a
truthy stored value is still returned and nothing is deleted. -/
theorem claim1_lazy_expiry (c : DataCache) (key : String) (e now : Nat)
    (he : c.ttl.get? key = some e) (hpos : 0 < e) :
    (e < now →
      c.get key now = (.vNull, ⟨c.cache.delete key, c.ttl.delete key⟩)) ∧
    (∀ v : JsValue, c.cache.get? key = some v → v.truthy = true →
      c.get key e = (v, c)) := by
  constructor
  · intro hlt
    exact DataCache.get_expired c key e now he hpos hlt
  · intro v hv hvt
    rw [DataCache.get_live c key e e v he hpos (le_refl e) hv]
    simp [hvt]

/-- Witness for C1 (amended) at a concrete entry: expiry 100, reads at
times 101 and 100. -/
theorem claim1_witness :
    (DataCache.empty.set "k" (.vObj 0) (some 100) 0).get "k" 101
      = (.vNull,
          ⟨(DataCache.empty.set "k" (.vObj 0) (some 100) 0).cache.delete "k",
            (DataCache.empty.set "k" (.vObj 0) (some 100) 0).ttl.delete "k"⟩) ∧
    (DataCache.empty.set "k" (.vObj 0) (some 100) 0).get "k" 100
      = (.vObj 0, DataCache.empty.set "k" (.vObj 0) (some 100) 0) := by
  have h := claim1_lazy_expiry (DataCache.empty.set "k" (.vObj 0) (some 100) 0)
    "k" 100 101 (by decide) (by decide)
  exact ⟨h.1 (by decide), h.2 (.vObj 0) (by decide) (by decide)⟩

/-- C2. The claim promises `set` then `get` (before the TTL elapses) returns
the stored value with no restriction on the value. `get` ends in
`return this.cache.get(key) || null`, so a stored falsy value — here the
number `0` — comes back as `null` (absent), not as the stored value. -/
theorem claim2_counterexample :
    ((DataCache.empty.set "k" (.vNum 0) (some 100) 0).get "k" 1).1
        = .vNull ∧
    JsValue.vNum 0 ≠ JsValue.vNull ∧
    (1 : Nat) < 0 + effectiveTTL (some 100) := by
  decide

/-- C2 (amended): for every truthy value, `set(key, value, ttl)` followed by
`get(key)` strictly before the effective TTL elapses returns that value and
leaves the state unchanged; falsy stored values are flattened to absent by
`|| null`. -/
theorem claim2_set_then_get (c : DataCache) (key : String) (v : JsValue)
    (cttl : Option Nat) (now now' : Nat) (hv : v.truthy = true)
    (hbefore : now' < now + effectiveTTL cttl) :
    (c.set key v cttl now).get key now' = (v, c.set key v cttl now) := by
  have he := DataCache.ttl_get?_set_self c key v cttl now
  have hval := DataCache.cache_get?_set_self c key v cttl now
  have hpos : 0 < now + effectiveTTL cttl := by
    have := DataCache.effectiveTTL_pos cttl
    omega
  rw [DataCache.get_live _ key _ now' v he hpos (by omega) hval]
  simp [hv]

/-- Witness for C2 (amended): an object stored at time 0 with the default
TTL is returned by a read at time 10. -/
theorem claim2_witness :
    (DataCache.empty.set "k" (.vObj 7) none 0).get "k" 10
      = (.vObj 7, DataCache.empty.set "k" (.vObj 7) none 0) :=
  claim2_set_then_get DataCache.empty "k" (.vObj 7) none 0 10 (by decide)
    (by decide)

/-- C9: with base URL `http://localhost:8000` and version `v1`,
`getNDVIData(2015, "nepal_himalayas")` issues its one request as a GET to
`http://localhost:8000/api/v1/environmental/ndvi/2015?region=nepal_himalayas`,
following the `{baseURL}/api/{version}/{resource}` template. -/
theorem claim9_ndvi_request :
    ndviHttpRequest "http://localhost:8000" "v1" 2015 "nepal_himalayas"
      = ⟨"http://localhost:8000/api/v1/environmental/ndvi/2015?region=nepal_himalayas",
          "GET"⟩ := by
  decide

/-- C5. The claim: `getCacheStatus()` must not report a key whose entry has
expired even if untouched. The code reads the raw value map
(`this.cache['cache']`), so an entry set at time 0 with TTL 100 is still
listed (size 1, key present) at any later time, e.g. 200 > 100. -/
theorem claim5_counterexample :
    EOApiService.getCacheStatus
        (DataCache.empty.set "k" (.vObj 0) (some 100) 0) = (1, ["k"]) ∧
    (DataCache.empty.set "k" (.vObj 0) (some 100) 0).ttl.get? "k"
        = some 100 ∧
    (100 : Nat) < 200 := by
  decide

/-- C5 (amended): `getCacheStatus()` returns the raw value map's entry count
and key list without mutating anything, and it DOES report
expired-but-untouched keys; only after a `get` touches the expired key does
the status stop listing it. -/
theorem claim5_status_lazy (c : DataCache) (key : String) (e now : Nat)
    (he : c.ttl.get? key = some e) (hpos : 0 < e) (hexp : e < now)
    (hk : c.cache.hasKey key = true) :
    key ∈ (EOApiService.getCacheStatus c).2 ∧
    (EOApiService.getCacheStatus c).1 = c.cache.size ∧
    key ∉ (EOApiService.getCacheStatus ((c.get key now).2)).2 := by
  refine ⟨(JsMap.mem_keys_iff_hasKey c.cache key).mpr hk, rfl, ?_⟩
  rw [DataCache.get_expired c key e now he hpos hexp]
  intro hmem
  have hh : (c.cache.delete key).hasKey key = true :=
    (JsMap.mem_keys_iff_hasKey (c.cache.delete key) key).mp hmem
  rw [JsMap.hasKey_delete] at hh
  simp at hh

/-- Witness for C5 (amended): entry with expiry 100, status read before and
after a touching `get` at time 200. -/
theorem claim5_witness :
    "k" ∈ (EOApiService.getCacheStatus
        (DataCache.empty.set "k" (.vObj 0) (some 100) 0)).2 ∧
    "k" ∉ (EOApiService.getCacheStatus
        (((DataCache.empty.set "k" (.vObj 0) (some 100) 0).get "k"
            200).2)).2 := by
  have h := claim5_status_lazy
    (DataCache.empty.set "k" (.vObj 0) (some 100) 0) "k" 100 200
    (by decide) (by decide) (by decide) (by decide)
  exact ⟨h.1, h.2.2⟩

/-- C8. The claim: after `set(key, v1)` then `set(key, v2)`, `get(key)`
before expiry returns `v2`. With the falsy value `v2 = 0`, `get` returns
`null` (absent) instead of `v2`. -/
theorem claim8_counterexample :
    (((DataCache.empty.set "k" (.vObj 1) none 0).set "k" (.vNum 0) none
        0).get "k" 1).1 = .vNull ∧
    JsValue.vNum 0 ≠ JsValue.vNull := by
  decide

/-- C8 (amended): `set(key, v1)` then `set(key, v2)` leaves exactly one
entry for `key` holding `v2`, with its expiry reset to the second write's
`now + ttl` regardless of the first entry's remaining lifetime; a `get`
at or before that expiry returns `v2` when `v2` is truthy and absent
(never `v1`) when `v2` is falsy. -/
theorem claim8_overwrite (c : DataCache) (key : String) (v1 v2 : JsValue)
    (t1 t2 : Option Nat) (n1 n2 : Nat) (hnd : c.cache.keys.Nodup) :
    ((c.set key v1 t1 n1).set key v2 t2 n2).cache.get? key = some v2 ∧
    ((c.set key v1 t1 n1).set key v2 t2 n2).ttl.get? key
      = some (n2 + effectiveTTL t2) ∧
    ((c.set key v1 t1 n1).set key v2 t2 n2).cache.keys.count key = 1 ∧
    ∀ now', now' ≤ n2 + effectiveTTL t2 →
      ((c.set key v1 t1 n1).set key v2 t2 n2).get key now'
        = (if v2.truthy then v2 else .vNull,
            (c.set key v1 t1 n1).set key v2 t2 n2) := by
  have hval := DataCache.cache_get?_set_self (c.set key v1 t1 n1) key v2 t2 n2
  have he := DataCache.ttl_get?_set_self (c.set key v1 t1 n1) key v2 t2 n2
  have hpos : 0 < n2 + effectiveTTL t2 := by
    have := DataCache.effectiveTTL_pos t2
    omega
  refine ⟨hval, he, ?_, ?_⟩
  · have hnd2 : ((c.set key v1 t1 n1).set key v2 t2 n2).cache.keys.Nodup :=
      JsMap.keys_nodup_set _ _ _ (JsMap.keys_nodup_set _ _ _ hnd)
    have hmem : key ∈ ((c.set key v1 t1 n1).set key v2 t2 n2).cache.keys := by
      rw [JsMap.mem_keys_iff_hasKey, JsMap.hasKey_iff_get?, hval]
      rfl
    exact List.count_eq_one_of_mem hnd2 hmem
  · intro now' hb
    exact DataCache.get_live _ key _ now' v2 he hpos hb hval

/-- Witness for C8 (amended): overwrite with a truthy second value, read
exactly at the reset expiry `7 + 50`. -/
theorem claim8_witness :
    ((DataCache.empty.set "k" (.vObj 1) none 0).set "k" (.vObj 2) (some 50)
        7).get "k" 57
      = (.vObj 2,
          (DataCache.empty.set "k" (.vObj 1) none 0).set "k" (.vObj 2)
            (some 50) 7) := by
  have h := claim8_overwrite DataCache.empty "k" (.vObj 1) (.vObj 2) none
    (some 50) 0 7 (by decide)
  have h4 := h.2.2.2 57 (by decide)
  simpa using h4

/-- C3. The claim: with a live cache entry under the operation's key, the
accessor returns the cached value with zero Request Client calls. The hit
test is JS truthiness (`if (cachedData)`), so a live entry holding the falsy
value `0` is treated as a miss: the client is called once and its result —
not the cached value — is returned. -/
theorem claim3_counterexample :
    (⟨DataCache.empty.set "ndvi_2020_nepal_himalayas" (.vNum 0) (some 1000)
          0, 0⟩ : ServiceState).cache.ttl.get?
        (cacheKey "ndvi" 2020 "nepal_himalayas") = some 1000 ∧
    (5 : Nat) < 1000 ∧
    (cachedFetch "ndvi" 2020 "nepal_himalayas" (.ok (.vObj 9))
        ⟨DataCache.empty.set "ndvi_2020_nepal_himalayas" (.vNum 0)
          (some 1000) 0, 0⟩ 5).2.clientCalls = 1 ∧
    (cachedFetch "ndvi" 2020 "nepal_himalayas" (.ok (.vObj 9))
        ⟨DataCache.empty.set "ndvi_2020_nepal_himalayas" (.vNum 0)
          (some 1000) 0, 0⟩ 5).1 = .ok (.vObj 9) := by
  refine ⟨by decide, by decide, by decide, rfl⟩

/-- C3 (amended): when the cache lookup for `"{op}_{year}_{region}"` yields a
truthy value, the accessor returns it with zero Request Client calls; when
the lookup yields a falsy result (absent, expired, or a falsy stored value),
the accessor makes exactly one Request Client call, stores a successful
result under that key with the default TTL, and returns it. -/
theorem claim3_read_through (op : String) (year : Int) (region : String)
    (client : Except JsError JsValue) (st : ServiceState) (now : Nat) :
    ((st.cache.get (cacheKey op year region) now).1.truthy = true →
      cachedFetch op year region client st now
        = (.ok (st.cache.get (cacheKey op year region) now).1,
            ⟨(st.cache.get (cacheKey op year region) now).2,
              st.clientCalls⟩)) ∧
    ((st.cache.get (cacheKey op year region) now).1.truthy = false →
      ∀ d : JsValue, client = .ok d →
        cachedFetch op year region client st now
          = (.ok d,
              ⟨((st.cache.get (cacheKey op year region) now).2).set
                  (cacheKey op year region) d none now,
                st.clientCalls + 1⟩) ∧
        (((st.cache.get (cacheKey op year region) now).2).set
              (cacheKey op year region) d none now).ttl.get?
            (cacheKey op year region) = some (now + defaultCacheTTL) ∧
        (((st.cache.get (cacheKey op year region) now).2).set
              (cacheKey op year region) d none now).cache.get?
            (cacheKey op year region) = some d) := by
  constructor
  · intro hhit
    unfold cachedFetch
    rw [if_pos hhit]
  · intro hmiss d hd
    subst hd
    refine ⟨?_, ?_, ?_⟩
    · unfold cachedFetch
      rw [if_neg (by simp [hmiss])]
    · exact DataCache.ttl_get?_set_self _ (cacheKey op year region) d none now
    · exact DataCache.cache_get?_set_self _ (cacheKey op year region) d none
        now

/-- Witness for C3 (amended): a populated truthy entry is served from the
cache; the Request Client (here an always-failing one) is never consulted
and the call counter stays at 0. -/
theorem claim3_witness :
    cachedFetch "ndvi" 2020 "nepal_himalayas" (.error ⟨"Error", "boom"⟩)
        ⟨DataCache.empty.set "ndvi_2020_nepal_himalayas" (.vObj 5)
          (some 1000) 0, 0⟩ 5
      = (.ok (.vObj 5),
          ⟨DataCache.empty.set "ndvi_2020_nepal_himalayas" (.vObj 5)
            (some 1000) 0, 0⟩) := by
  have h := (claim3_read_through "ndvi" 2020 "nepal_himalayas"
    (.error ⟨"Error", "boom"⟩)
    ⟨DataCache.empty.set "ndvi_2020_nepal_himalayas" (.vObj 5) (some 1000) 0,
      0⟩ 5).1 (by decide)
  rw [h]
  rfl

/-- C4. The claim: after a failed Request Client call, the cache holds no
entry for the operation's key. If a live falsy entry already sat under the
key (here the number `0`), the failing call leaves that entry in place: the
cache still holds an entry for the key afterwards. -/
theorem claim4_counterexample :
    (cachedFetch "ndvi" 2020 "r" (.error ⟨"TypeError", "Failed to fetch"⟩)
        ⟨DataCache.empty.set "ndvi_2020_r" (.vNum 0) (some 1000) 0, 0⟩
        5).1 = .error ⟨"TypeError", "Failed to fetch"⟩ ∧
    (cachedFetch "ndvi" 2020 "r" (.error ⟨"TypeError", "Failed to fetch"⟩)
        ⟨DataCache.empty.set "ndvi_2020_r" (.vNum 0) (some 1000) 0, 0⟩
        5).2.cache.cache.get? "ndvi_2020_r" = some (.vNum 0) ∧
    (cachedFetch "ndvi" 2020 "r" (.error ⟨"TypeError", "Failed to fetch"⟩)
        ⟨DataCache.empty.set "ndvi_2020_r" (.vNum 0) (some 1000) 0, 0⟩
        5).2.clientCalls = 1 := by
  refine ⟨rfl, by decide, by decide⟩

/-- C4 (amended): when the cache misses and the Request Client fails, the
error propagates unchanged and the failure is never written to the cache: a
key that was absent stays absent, an expired entry is (lazily) gone, a
pre-existing live falsy entry is merely left untouched — and the next call
for the same operation invokes the Request Client again. -/
theorem claim4_no_negative_caching (op : String) (year : Int)
    (region : String) (e : JsError) (st : ServiceState) (now : Nat)
    (hmiss : (st.cache.get (cacheKey op year region) now).1.truthy = false) :
    (cachedFetch op year region (.error e) st now).1 = .error e ∧
    (cachedFetch op year region (.error e) st now).2.clientCalls
      = st.clientCalls + 1 ∧
    (st.cache.ttl.get? (cacheKey op year region) = none →
      st.cache.cache.get? (cacheKey op year region) = none →
      (cachedFetch op year region (.error e) st now).2.cache.ttl.get?
          (cacheKey op year region) = none ∧
      (cachedFetch op year region (.error e) st now).2.cache.cache.get?
          (cacheKey op year region) = none) ∧
    (∀ ex : Nat, st.cache.ttl.get? (cacheKey op year region) = some ex →
      0 < ex → ex < now →
      (cachedFetch op year region (.error e) st now).2.cache.ttl.get?
          (cacheKey op year region) = none ∧
      (cachedFetch op year region (.error e) st now).2.cache.cache.get?
          (cacheKey op year region) = none) ∧
    (∀ (client' : Except JsError JsValue) (now' : Nat),
      (cachedFetch op year region client'
          (cachedFetch op year region (.error e) st now).2 now').2.clientCalls
        = st.clientCalls + 2) := by
  have hred : cachedFetch op year region (.error e) st now
      = (.error e,
          ⟨(st.cache.get (cacheKey op year region) now).2,
            st.clientCalls + 1⟩) := by
    unfold cachedFetch
    rw [if_neg (by simp [hmiss])]
  refine ⟨by rw [hred], by rw [hred], ?_, ?_, ?_⟩
  · intro h1 h2
    rw [hred]
    rw [DataCache.get_absent st.cache (cacheKey op year region) now h1]
    exact ⟨h1, h2⟩
  · intro ex hex hpos hlt
    rw [hred]
    rw [DataCache.get_expired st.cache (cacheKey op year region) ex now
      hex hpos hlt]
    exact ⟨JsMap.get?_delete_self st.cache.ttl (cacheKey op year region),
      JsMap.get?_delete_self st.cache.cache (cacheKey op year region)⟩
  · intro client' now'
    rw [hred]
    have hpersist := DataCache.get_falsy_persists st.cache
      (cacheKey op year region) now now' hmiss
    unfold cachedFetch
    rw [if_neg (by simp [hpersist])]
    cases client' with
    | error e' => rfl
    | ok d => rfl

/-- Witness for C4 (amended), from an empty cache: the transport error
propagates, nothing is cached under the key, and an immediately following
call consults the client again (counter reaches 2). -/
theorem claim4_witness :
    (cachedFetch "glacier" 2020 "r" (.error ⟨"TypeError", "Failed to fetch"⟩)
        ServiceState.initial 5).1
      = .error ⟨"TypeError", "Failed to fetch"⟩ ∧
    (cachedFetch "glacier" 2020 "r" (.error ⟨"TypeError", "Failed to fetch"⟩)
        ServiceState.initial 5).2.cache.cache.get?
        (cacheKey "glacier" 2020 "r") = none ∧
    (cachedFetch "glacier" 2020 "r" (.ok (.vObj 3))
        (cachedFetch "glacier" 2020 "r"
          (.error ⟨"TypeError", "Failed to fetch"⟩) ServiceState.initial
          5).2 6).2.clientCalls = 2 := by
  have h := claim4_no_negative_caching "glacier" 2020 "r"
    ⟨"TypeError", "Failed to fetch"⟩ ServiceState.initial 5 (by decide)
  exact ⟨h.1, (h.2.2.1 (by decide) (by decide)).2,
    h.2.2.2.2 (.ok (.vObj 3)) 6⟩

/-- C6. The claim: every accessor URL-encodes its query parameters. The
indicator accessors interpolate the region raw: for the region `"a b"` the
produced endpoint keeps the literal space, whereas its URL-encoding (as the
code's own `URLSearchParams` would produce) is `"a+b"`. -/
theorem claim6_counterexample :
    EOApiClient.ndviEndpoint 2020 "a b"
        = "/environmental/ndvi/2020?region=a b" ∧
    formUrlEncode "a b" = "a+b" ∧
    EOApiClient.ndviEndpoint 2020 "a b"
      ≠ "/environmental/ndvi/2020?region=" ++ formUrlEncode "a b" := by
  decide

/-- C6 (amended): only `getTemporalComparison` URL-encodes its query
parameters (via `URLSearchParams`); the indicator accessors interpolate
`year` and `region` into the endpoint raw, so their region parameter equals
the region string itself and agrees with the URL-encoded form exactly when
encoding leaves the string unchanged. -/
theorem claim6_encoding (year : Int) (region : String) :
    EOApiClient.ndviEndpoint year region
      = "/environmental/ndvi/" ++ toString year ++ "?region=" ++ region ∧
    EOApiClient.glacierEndpoint year region
      = "/environmental/glacier/" ++ toString year ++ "?region=" ++ region ∧
    EOApiClient.urbanEndpoint year region
      = "/environmental/urban/" ++ toString year ++ "?region=" ++ region ∧
    EOApiClient.temperatureEndpoint year region
      = "/environmental/temperature/" ++ toString year ++ "?region="
          ++ region ∧
    EOApiClient.temporalComparisonEndpoint "ndvi" "a b" 2000 2025 false
      = "/environmental/compare/temporal?indicator=ndvi&region=a+b&start_year=2000&end_year=2025&include_intermediate=false" ∧
    (formUrlEncode region = region →
      EOApiClient.ndviEndpoint year region
        = "/environmental/ndvi/" ++ toString year ++ "?region="
            ++ formUrlEncode region) := by
  refine ⟨rfl, rfl, rfl, rfl, by decide, ?_⟩
  intro h
  rw [h]
  rfl

/-- Witness for C6 (amended): `"nepal_himalayas"` is fixed by form-URL
encoding, so the raw interpolation and the encoded parameter agree there. -/
theorem claim6_witness :
    EOApiClient.ndviEndpoint 2020 "nepal_himalayas"
      = "/environmental/ndvi/" ++ toString (2020 : Int) ++ "?region="
          ++ formUrlEncode "nepal_himalayas" :=
  (claim6_encoding 2020 "nepal_himalayas").2.2.2.2.2 (by decide)

/-- C7. The claim: the three failure kinds are distinguishable by kind. The
code throws a plain `Error` for a non-2xx status and rethrows transport and
decode errors unchanged, so a transport error whose message happens to read
`"HTTP error! status: 500"` produces the exact same thrown value as a real
HTTP 500: the kinds cannot be told apart. -/
theorem claim7_counterexample :
    EOApiClient.request
        (.transportFail ⟨"Error", "HTTP error! status: 500"⟩)
      = EOApiClient.request (.response 500 (.ok (.vObj 0))) ∧
    respOk 500 = false := by
  constructor
  · simp only [EOApiClient.request]
    rw [if_neg (by decide)]
    have h : ("HTTP error! status: " ++ toString (500 : Nat))
        = "HTTP error! status: 500" := by decide
    rw [h]
  · decide

/-- C7 (amended): a non-2xx status makes `request` fail with a plain `Error`
whose message is `"HTTP error! status: "` followed by the decimal status
(the message string is the only carrier of the status code); transport and
decode failures are rethrown unchanged, and no dedicated error kinds
exist. -/
theorem claim7_error_behaviour :
    (∀ (status : Nat) (body : Except JsError JsValue),
      respOk status = false →
        EOApiClient.request (.response status body)
          = .error (EOApiClient.httpStatusError status)) ∧
    (∀ e : JsError,
      EOApiClient.request (.transportFail e) = .error e) ∧
    (∀ (status : Nat) (e : JsError), respOk status = true →
      EOApiClient.request (.response status (.error e)) = .error e) ∧
    (∀ (status : Nat) (v : JsValue), respOk status = true →
      EOApiClient.request (.response status (.ok v)) = .ok v) := by
  refine ⟨?_, fun e => rfl, ?_, ?_⟩
  · intro status body h
    simp only [EOApiClient.request]
    rw [if_neg (by simp [h])]
    rfl
  · intro status e h
    simp only [EOApiClient.request]
    rw [if_pos h]
  · intro status v h
    simp only [EOApiClient.request]
    rw [if_pos h]

/-- Witness for C7 (amended): a 404 yields the message-carrying `Error`;
a 200 with a decodable body yields the value. -/
theorem claim7_witness :
    EOApiClient.request (.response 404 (.ok (.vObj 1)))
      = .error (EOApiClient.httpStatusError 404) ∧
    EOApiClient.request (.response 200 (.ok (.vObj 1))) = .ok (.vObj 1) :=
  ⟨claim7_error_behaviour.1 404 (.ok (.vObj 1)) (by decide),
    claim7_error_behaviour.2.2.2 200 (.vObj 1) (by decide)⟩

/-- C10: after any finite sequence of cache operations from a fresh cache,
the value map and the expiry map hold exactly the same keys, each at most
once: no value without an expiry and no expiry without a value. -/
theorem claim10_maps_in_sync (ops : List CacheOp) :
    (applyOps DataCache.empty ops).wellFormed :=
  wellFormed_applyOps DataCache.empty ops wellFormed_empty

end EarthPulse
